import Mathlib

/-!
Verification development for the terraform-provider-salty reconciliation core.

The Go source (internal/provider, current revision: the `GrainResource` list
resource with the Uyuni readiness gate, plus the `GrainStringResource` scalar
resource) is shallowly embedded below.  Remote effects (SSH transport calls,
the Uyuni HTTP inventory API, JSON bodies returned by the minion) are
modelled as explicit environment records holding the result of each call
site, and every operation is a pure function from its environment and inputs
to the trace of remote commands it issues plus the diagnostics and state it
produces.  Real time in `waitMinionIsUp` is abstracted to a fuel counter:
fuel `n` means `n` more poll iterations fit before the 30-minute deadline
passes.
-/

namespace Salty

/-- Result of the string comparison loops in the source
(`isFound := false; for s in xs { if s == y { isFound = true } }` and the
early-returning membership loop of `CheckServerAccepted`): `true` exactly
when `y` occurs in `xs` by exact string equality. -/
def listHas : List String → String → Bool
  | [], _ => false
  | x :: xs, y => if x == y then true else listHas xs y

/-- Character-list prefix test, used only to state substring facts about
concrete error messages. -/
def charsStartWith : List Char → List Char → Bool
  | [], _ => true
  | _ :: _, [] => false
  | a :: as, b :: bs => a == b && charsStartWith as bs

/-- Character-list substring test. -/
def charsContain : List Char → List Char → Bool
  | [], pat => pat.isEmpty
  | s@(_ :: rest), pat => charsStartWith pat s || charsContain rest pat

/-- String `s` contains `pat` as a contiguous substring. -/
def strContains (s pat : String) : Bool :=
  charsContain s.toList pat.toList

/-- Whether an `Except`-modelled remote call succeeded. -/
def isOkE : Except String String → Bool
  | .ok _ => true
  | .error _ => false

/-- Abstraction of the JSON body returned by
`salt-call grains.get <key> --out=json`: either malformed JSON, or the
envelope with a null, string or string-array `local` field. -/
inductive GrainGetResponse where
  | malformed
  | localNull
  | localString (s : String)
  | localList (xs : List String)
  deriving DecidableEq

/-- Mirrors `json.Unmarshal` into `SaltGrainModel{Roles []string}`:
malformed JSON or a non-array `local` value yields a Go error and leaves
`Roles` nil; `null` is accepted and leaves `Roles` nil; an array fills
`Roles`. -/
def unmarshalListGrain : GrainGetResponse → Except Unit (Option (List String))
  | .malformed => .error ()
  | .localNull => .ok none
  | .localString _ => .error ()
  | .localList xs => .ok (some xs)

/-- Mirrors `json.Unmarshal` into `SaltGrainStringModel{Value string}`:
malformed JSON or a non-string `local` value yields a Go error and leaves
`Value` at its zero value; `null` is accepted and leaves `Value` at "". -/
def unmarshalStringGrain : GrainGetResponse → Except Unit String
  | .malformed => .error ()
  | .localNull => .ok ""
  | .localString s => .ok s
  | .localList _ => .error ()

/-- Value the scalar `Read` stores: the decode error is discarded
(`_ = json.Unmarshal`), so on any failure the zero value "" remains. -/
def readScalarValue (resp : GrainGetResponse) : String :=
  match unmarshalStringGrain resp with
  | .error _ => ""
  | .ok s => s

/-- Value the list `Read` stores: the decode error is discarded, and a nil
`Roles` slice is replaced by the empty list. -/
def readListValue (resp : GrainGetResponse) : List String :=
  match unmarshalListGrain resp with
  | .error _ => []
  | .ok roles => roles.getD []

/-- A remote command issued through `runRemoteCommand`, abstracted to its
salt operation and payload. -/
inductive Cmd where
  | getGrain (key : String)
  | appendGrain (key value : String)
  | removeGrain (key value : String)
  | setGrain (key value : String)
  | delKey (key : String)
  | stateApply
  deriving DecidableEq

/-- Number of convergence (`state.apply`) commands in a trace. -/
def countApply : List Cmd → Nat
  | [] => 0
  | .stateApply :: t => countApply t + 1
  | _ :: t => countApply t

/-- The `grains.remove` commands occurring in a trace. -/
def removesIn (t : List Cmd) : List Cmd :=
  t.filter fun c =>
    match c with
    | .removeGrain _ _ => true
    | _ => false

/-- How a resource operation ends: it reaches its final `State.Set`
(`completed`), it returns after adding an error diagnostic (`hardError`),
or it returns early with no diagnostic at all (`silentReturn`, the
decode-failure path of the list `Update`). -/
inductive Outcome where
  | completed
  | hardError
  | silentReturn
  deriving DecidableEq

/-- Observable result of a mutating operation: issued command trace, how it
ended, error-level and warning-level diagnostics, and the identity stored
into state (when state was stored). -/
structure MutResult where
  trace : List Cmd
  outcome : Outcome
  errors : List String
  warnings : List String
  savedId : Option String
  deriving DecidableEq

/-- Observable result of the scalar `Read`. -/
structure ScalarReadResult where
  trace : List Cmd
  outcome : Outcome
  savedValue : Option String
  savedId : Option String
  deriving DecidableEq

/-- Observable result of the list `Read`. -/
structure ListReadResult where
  trace : List Cmd
  outcome : Outcome
  savedList : Option (List String)
  savedId : Option String
  deriving DecidableEq

/-- Result of `waitMinionIsUp`: success, the timeout error, or the wrapped
inventory error. -/
inductive WaitOutcome where
  | success
  | timeout (msg : String)
  | inventoryError (msg : String)
  deriving DecidableEq

/-- The Go constant `30 * time.Minute`, a `time.Duration`, whose numeric
value is its count of nanoseconds.  The source formats this value with
`%d` into its timeout message. -/
def timeoutDurationValue : Nat := 30 * 60 * 1000000000

/-- The exact timeout message built by `waitMinionIsUp`:
`fmt.Errorf("timeout reached after %d minutes; salt-key for %s not accepted", timeout, server)`
where `timeout` is the `time.Duration` above. -/
def timeoutMessage (host : String) : String :=
  "timeout reached after " ++ toString timeoutDurationValue ++
    " minutes; salt-key for " ++ host ++ " not accepted"

/-- The readiness-gate loop of `waitMinionIsUp`.  `checks i` is the result
of the `i`-th call to `CheckServerAccepted`; `fuel` is the number of poll
iterations still fitting before the 30-minute deadline (the
`time.Now().After(deadline)` test abstracted).  The loop checks the
deadline first, then polls; an inventory error is returned at once, an
accepted host returns success, otherwise it sleeps 10 s and loops. -/
def waitMinionIsUp (checks : Nat → Except String Bool) (host : String) :
    Nat → Nat → WaitOutcome
  | _, 0 => .timeout (timeoutMessage host)
  | i, fuel + 1 =>
    match checks i with
    | .error e =>
        .inventoryError ("error checking salt-key acceptance of " ++ host ++ ": " ++ e)
    | .ok true => .success
    | .ok false => waitMinionIsUp checks host (i + 1) fuel

/-- An HTTP response as observed by `CheckServerAccepted`: status code and
body text (the body is only used in failure messages). -/
structure InvResponse where
  status : Nat
  body : String
  deriving DecidableEq

/-- Environment for one `CheckServerAccepted` call: outcome of the login
POST, of the acceptedList GET, and of decoding the acceptedList body into
`{success bool, result []string}`.  Cookie-jar creation and payload
marshalling cannot fail for the fixed login payload and are elided. -/
structure InventoryEnv where
  login : Except String InvResponse
  acceptedList : Except String InvResponse
  decodeList : Except String (Bool × List String)

/-- Mirrors the Go `CheckServerAccepted`: login, fetch the accepted list,
decode it, then test membership of `serverName` by exact string match.
The decoded `success` flag is never consulted. -/
def CheckServerAccepted (env : InventoryEnv) (serverName : String) :
    Except String Bool :=
  match env.login with
  | .error e => .error ("login request failed: " ++ e)
  | .ok r =>
    if r.status == 200 then
      match env.acceptedList with
      | .error e => .error ("acceptedList request failed: " ++ e)
      | .ok r2 =>
        if r2.status == 200 then
          match env.decodeList with
          | .error e => .error ("failed to parse acceptedList response: " ++ e)
          | .ok pr => .ok (listHas pr.2 serverName)
        else .error ("failed to fetch acceptedList: " ++ r2.body)
    else .error ("login failed: " ++ r.body)

/-- Environment for one `runRemoteCommand` call: key parsing, dialing
port 22, session creation, and the command run, the last returning the
captured output together with an error message when the remote exit status
is non-zero (or transport I/O fails). -/
structure SshEnv where
  parseKey : Except String Unit
  dial : Except String Unit
  newSession : Except String Unit
  runOutput : String × Option String

/-- Mirrors the Go `runRemoteCommand` error discipline.  On success the
captured output is returned; each failure is wrapped in the exact message
the source builds.  Note the command-failure message interpolates the
command, the server and the underlying error, not the captured output
(which is only written to the log sink). -/
def runRemoteCommand (env : SshEnv) (server cmd : String) : Except String String :=
  match env.parseKey with
  | .error e =>
      .error ("malformed private key: " ++ e ++
        ", please report this issue to the provider developers")
  | .ok _ =>
    match env.dial with
    | .error e => .error ("cannot connect to the Salt Minion " ++ server ++ ": " ++ e)
    | .ok _ =>
      match env.newSession with
      | .error e =>
          .error ("cannot create session with the Salt Minion " ++ server ++ ": " ++ e)
      | .ok _ =>
        match env.runOutput.2 with
        | some e =>
            .error ("cannot run the command " ++ cmd ++ " on Salt Minion " ++
              server ++ ": " ++ e)
        | none => .ok env.runOutput.1

/-- Mirrors the apply-state block shared by every mutating operation:
`applyStateResult, err := r.applyState(...)`; on error an error diagnostic
`cannot apply state: <err>` is added; the result (empty on failure, since
`runRemoteCommand` returns "" with its error) is always added as a warning
diagnostic; the operation proceeds only when no error occurred.
Returns (warnings, errors, proceed). -/
def applyDiagnostics : Except String String → List String × List String × Bool
  | .ok out => ([out], [], true)
  | .error e => ([""], ["cannot apply state: " ++ e], false)

/-- Phase-1 append loop of the list `Update`: for each desired element not
found in the decoded live list (`listHas`), issue `grains.append`; the
first transport error aborts the loop.  Returns the issued commands and
the error message of the failing append, if any. -/
def appendMissing (ar : String → Except String String) (key : String)
    (live : List String) : List String → List Cmd × Option String
  | [] => ([], none)
  | d :: ds =>
    if listHas live d then appendMissing ar key live ds
    else
      match ar d with
      | .error e => ([Cmd.appendGrain key d], some e)
      | .ok _ =>
        let rest := appendMissing ar key live ds
        (Cmd.appendGrain key d :: rest.1, rest.2)

/-- Phase-3 removal loop of the list `Update` (current revision): for each
element of the re-fetched live list, scan the full desired list
(re-asserting each element to `types.String`); when the live element is
found nowhere in the desired list, issue `grains.remove`.  The first
transport error aborts the loop. -/
def removeStale (rr : String → Except String String) (key : String)
    (desired : List String) : List String → List Cmd × Option String
  | [] => ([], none)
  | l :: ls =>
    if listHas desired l then removeStale rr key desired ls
    else
      match rr l with
      | .error e => ([Cmd.removeGrain key l], some e)
      | .ok _ =>
        let rest := removeStale rr key desired ls
        (Cmd.removeGrain key l :: rest.1, rest.2)

/-- The append loop of the list `Create`: one `grains.append` per desired
element in order, aborting on the first error. -/
def appendAll (ar : String → Except String String) (key : String) :
    List String → List Cmd × Option String
  | [] => ([], none)
  | v :: vs =>
    match ar v with
    | .error e => ([Cmd.appendGrain key v], some e)
    | .ok _ =>
      let rest := appendAll ar key vs
      (Cmd.appendGrain key v :: rest.1, rest.2)

/-- The removal loop of the list `Delete`: one `grains.remove` per element
of the stored list in order, aborting on the first error. -/
def removeAll (rr : String → Except String String) (key : String) :
    List String → List Cmd × Option String
  | [] => ([], none)
  | v :: vs =>
    match rr v with
    | .error e => ([Cmd.removeGrain key v], some e)
    | .ok _ =>
      let rest := removeAll rr key vs
      (Cmd.removeGrain key v :: rest.1, rest.2)

/-- Environment for the list `Update`: readiness-gate outcome, the two
`grains.get` calls (transport result carrying the response body), the
per-value append and remove transport results, and the apply-state
result. -/
structure ListUpdateEnv where
  wait : WaitOutcome
  get1 : Except String GrainGetResponse
  appendRes : String → Except String String
  get2 : Except String GrainGetResponse
  removeRes : String → Except String String
  applyRes : Except String String

/-- Environment for the list `Create`. -/
structure ListCreateEnv where
  wait : WaitOutcome
  appendRes : String → Except String String
  applyRes : Except String String

/-- Environment for the list `Delete`. -/
structure ListDeleteEnv where
  wait : WaitOutcome
  removeRes : String → Except String String
  applyRes : Except String String

/-- Environment for the scalar `Create`/`Update`/`Delete`: the single
mutation command result and the apply-state result. -/
structure ScalarMutEnv where
  wait : WaitOutcome
  cmdRes : Except String String
  applyRes : Except String String

/-- Environment for the scalar and list `Read`. -/
structure ReadEnv where
  wait : WaitOutcome
  getRes : Except String GrainGetResponse

/-- The list `GrainResource.Create`: gate on the minion, then one
`grains.append` per desired element in order (first failure aborts and is
surfaced), then the apply-state block, then store the identity
`server ++ "-" ++ key`. -/
def grainCreate (env : ListCreateEnv) (server key : String)
    (values : List String) (applyFlag : Bool) : MutResult :=
  match env.wait with
  | .timeout _ => ⟨[], .hardError, ["failed to wait for the minion to be up"], [], none⟩
  | .inventoryError _ =>
      ⟨[], .hardError, ["failed to wait for the minion to be up"], [], none⟩
  | .success =>
    match appendAll env.appendRes key values with
    | (cmds, some _) =>
        ⟨cmds, .hardError, ["Cannot create the grain value on the Salt Minion"], [], none⟩
    | (cmds, none) =>
      if applyFlag then
        match applyDiagnostics env.applyRes with
        | (ws, es, true) =>
            ⟨cmds ++ [Cmd.stateApply], .completed, es, ws, some (server ++ "-" ++ key)⟩
        | (ws, es, false) => ⟨cmds ++ [Cmd.stateApply], .hardError, es, ws, none⟩
      else ⟨cmds, .completed, [], [], some (server ++ "-" ++ key)⟩

/-- The list `GrainResource.Read`: gate, one `grains.get`, decode with the
error discarded and nil mapped to the empty list, store the host-reported
list and the identity. -/
def grainRead (env : ReadEnv) (server key : String) : ListReadResult :=
  match env.wait with
  | .timeout _ => ⟨[], .hardError, none, none⟩
  | .inventoryError _ => ⟨[], .hardError, none, none⟩
  | .success =>
    match env.getRes with
    | .error _ => ⟨[Cmd.getGrain key], .hardError, none, none⟩
    | .ok resp =>
        ⟨[Cmd.getGrain key], .completed, some (readListValue resp),
          some (server ++ "-" ++ key)⟩

/-- The list `GrainResource.Update` (current revision): gate; fetch and
decode the live list (a decode error returns silently, with no diagnostic);
phase-1 appends of desired elements missing from the live snapshot;
re-fetch and decode (again returning silently on decode error); phase-3
removals of refreshed live elements found nowhere in the desired list;
the apply-state block; store the identity. -/
def grainUpdate (env : ListUpdateEnv) (server key : String)
    (desired : List String) (applyFlag : Bool) : MutResult :=
  match env.wait with
  | .timeout _ => ⟨[], .hardError, ["failed to wait for the minion to be up"], [], none⟩
  | .inventoryError _ =>
      ⟨[], .hardError, ["failed to wait for the minion to be up"], [], none⟩
  | .success =>
    match env.get1 with
    | .error _ =>
        ⟨[Cmd.getGrain key], .hardError,
          ["Cannot get the grain value on the Salt Minion"], [], none⟩
    | .ok resp1 =>
      match unmarshalListGrain resp1 with
      | .error _ => ⟨[Cmd.getGrain key], .silentReturn, [], [], none⟩
      | .ok roles1 =>
        match appendMissing env.appendRes key (roles1.getD []) desired with
        | (cmds1, some _) =>
            ⟨Cmd.getGrain key :: cmds1, .hardError,
              ["Cannot append the grain value on the Salt Minion"], [], none⟩
        | (cmds1, none) =>
          match env.get2 with
          | .error _ =>
              ⟨(Cmd.getGrain key :: cmds1) ++ [Cmd.getGrain key], .hardError,
                ["Cannot get the grain value on the Salt Minion"], [], none⟩
          | .ok resp2 =>
            match unmarshalListGrain resp2 with
            | .error _ =>
                ⟨(Cmd.getGrain key :: cmds1) ++ [Cmd.getGrain key], .silentReturn,
                  [], [], none⟩
            | .ok roles2 =>
              match removeStale env.removeRes key desired (roles2.getD []) with
              | (cmds3, some _) =>
                  ⟨(Cmd.getGrain key :: cmds1) ++ [Cmd.getGrain key] ++ cmds3,
                    .hardError,
                    ["Cannot delete the grain value on the Salt Minion"], [], none⟩
              | (cmds3, none) =>
                if applyFlag then
                  match applyDiagnostics env.applyRes with
                  | (ws, es, true) =>
                      ⟨(Cmd.getGrain key :: cmds1) ++ [Cmd.getGrain key] ++ cmds3 ++
                          [Cmd.stateApply],
                        .completed, es, ws, some (server ++ "-" ++ key)⟩
                  | (ws, es, false) =>
                      ⟨(Cmd.getGrain key :: cmds1) ++ [Cmd.getGrain key] ++ cmds3 ++
                          [Cmd.stateApply],
                        .hardError, es, ws, none⟩
                else
                  ⟨(Cmd.getGrain key :: cmds1) ++ [Cmd.getGrain key] ++ cmds3,
                    .completed, [], [], some (server ++ "-" ++ key)⟩

/-- The list `GrainResource.Delete`: gate, one `grains.remove` per stored
element in order (first failure aborts, surfacing the transport message
itself), then the apply-state block.  No state or identity is saved. -/
def grainDelete (env : ListDeleteEnv) (key : String) (values : List String)
    (applyFlag : Bool) : MutResult :=
  match env.wait with
  | .timeout _ => ⟨[], .hardError, ["failed to wait for the minion to be up"], [], none⟩
  | .inventoryError _ =>
      ⟨[], .hardError, ["failed to wait for the minion to be up"], [], none⟩
  | .success =>
    match removeAll env.removeRes key values with
    | (cmds, some e) => ⟨cmds, .hardError, [e], [], none⟩
    | (cmds, none) =>
      if applyFlag then
        match applyDiagnostics env.applyRes with
        | (ws, es, true) => ⟨cmds ++ [Cmd.stateApply], .completed, es, ws, none⟩
        | (ws, es, false) => ⟨cmds ++ [Cmd.stateApply], .hardError, es, ws, none⟩
      else ⟨cmds, .completed, [], [], none⟩

/-- The scalar `GrainStringResource.Create`: gate, one `grains.setval`
with the desired value (no pre-read), apply-state block, identity. -/
def grainStringCreate (env : ScalarMutEnv) (server key value : String)
    (applyFlag : Bool) : MutResult :=
  match env.wait with
  | .timeout _ => ⟨[], .hardError, ["failed to wait for the minion to be up"], [], none⟩
  | .inventoryError _ =>
      ⟨[], .hardError, ["failed to wait for the minion to be up"], [], none⟩
  | .success =>
    match env.cmdRes with
    | .error _ =>
        ⟨[Cmd.setGrain key value], .hardError,
          ["Cannot create the grain value on the Salt Minion"], [], none⟩
    | .ok _ =>
      if applyFlag then
        match applyDiagnostics env.applyRes with
        | (ws, es, true) =>
            ⟨[Cmd.setGrain key value, Cmd.stateApply], .completed, es, ws,
              some (server ++ "-" ++ key)⟩
        | (ws, es, false) =>
            ⟨[Cmd.setGrain key value, Cmd.stateApply], .hardError, es, ws, none⟩
      else ⟨[Cmd.setGrain key value], .completed, [], [], some (server ++ "-" ++ key)⟩

/-- The scalar `GrainStringResource.Read`: gate, one `grains.get`, store
exactly the decoded value (the decode error is discarded, leaving ""). -/
def grainStringRead (env : ReadEnv) (server key : String) : ScalarReadResult :=
  match env.wait with
  | .timeout _ => ⟨[], .hardError, none, none⟩
  | .inventoryError _ => ⟨[], .hardError, none, none⟩
  | .success =>
    match env.getRes with
    | .error _ => ⟨[Cmd.getGrain key], .hardError, none, none⟩
    | .ok resp =>
        ⟨[Cmd.getGrain key], .completed, some (readScalarValue resp),
          some (server ++ "-" ++ key)⟩

/-- The scalar `GrainStringResource.Update`: gate, one `grains.setval`
overwrite with the new value (no diff), apply-state block, identity. -/
def grainStringUpdate (env : ScalarMutEnv) (server key value : String)
    (applyFlag : Bool) : MutResult :=
  match env.wait with
  | .timeout _ => ⟨[], .hardError, ["failed to wait for the minion to be up"], [], none⟩
  | .inventoryError _ =>
      ⟨[], .hardError, ["failed to wait for the minion to be up"], [], none⟩
  | .success =>
    match env.cmdRes with
    | .error _ =>
        ⟨[Cmd.setGrain key value], .hardError,
          ["Cannot append the grain value on the Salt Minion"], [], none⟩
    | .ok _ =>
      if applyFlag then
        match applyDiagnostics env.applyRes with
        | (ws, es, true) =>
            ⟨[Cmd.setGrain key value, Cmd.stateApply], .completed, es, ws,
              some (server ++ "-" ++ key)⟩
        | (ws, es, false) =>
            ⟨[Cmd.setGrain key value, Cmd.stateApply], .hardError, es, ws, none⟩
      else ⟨[Cmd.setGrain key value], .completed, [], [], some (server ++ "-" ++ key)⟩

/-- The scalar `GrainStringResource.Delete`: gate, one `grains.delkey`
(its transport message surfaced on failure), apply-state block. -/
def grainStringDelete (env : ScalarMutEnv) (key : String)
    (applyFlag : Bool) : MutResult :=
  match env.wait with
  | .timeout _ => ⟨[], .hardError, ["failed to wait for the minion to be up"], [], none⟩
  | .inventoryError _ =>
      ⟨[], .hardError, ["failed to wait for the minion to be up"], [], none⟩
  | .success =>
    match env.cmdRes with
    | .error e => ⟨[Cmd.delKey key], .hardError, [e], [], none⟩
    | .ok _ =>
      if applyFlag then
        match applyDiagnostics env.applyRes with
        | (ws, es, true) => ⟨[Cmd.delKey key, Cmd.stateApply], .completed, es, ws, none⟩
        | (ws, es, false) => ⟨[Cmd.delKey key, Cmd.stateApply], .hardError, es, ws, none⟩
      else ⟨[Cmd.delKey key], .completed, [], [], none⟩

/-! Helper lemmas about the loop denotations. -/

theorem listHas_iff (xs : List String) (y : String) : listHas xs y = true ↔ y ∈ xs := by
  induction xs with
  | nil => simp [listHas]
  | cons x xs ih =>
    by_cases h : x = y
    · subst h; simp [listHas]
    · have hb : (x == y) = false := by
        simpa using h
      simp [listHas, hb, ih, List.mem_cons, h, Ne.symm h]

theorem appendAll_of_ok (ar : String → Except String String) (key : String)
    (h : ∀ v, isOkE (ar v) = true) (vs : List String) :
    appendAll ar key vs = (vs.map (Cmd.appendGrain key), none) := by
  induction vs with
  | nil => rfl
  | cons v vs ih =>
    cases hv : ar v with
    | error e => have hh := h v; rw [hv] at hh; simp [isOkE] at hh
    | ok o => simp [appendAll, hv, ih]

theorem removeAll_of_ok (rr : String → Except String String) (key : String)
    (h : ∀ v, isOkE (rr v) = true) (vs : List String) :
    removeAll rr key vs = (vs.map (Cmd.removeGrain key), none) := by
  induction vs with
  | nil => rfl
  | cons v vs ih =>
    cases hv : rr v with
    | error e => have hh := h v; rw [hv] at hh; simp [isOkE] at hh
    | ok o => simp [removeAll, hv, ih]

theorem appendMissing_of_ok (ar : String → Except String String) (key : String)
    (live : List String) (h : ∀ v, isOkE (ar v) = true) (ds : List String) :
    appendMissing ar key live ds
      = ((ds.filter fun d => !(listHas live d)).map (Cmd.appendGrain key), none) := by
  induction ds with
  | nil => rfl
  | cons d ds ih =>
    by_cases hd : listHas live d = true
    · simp [appendMissing, hd, ih]
    · cases hv : ar d with
      | error e => have hh := h d; rw [hv] at hh; simp [isOkE] at hh
      | ok o => simp [appendMissing, hd, hv, ih]

theorem removeStale_of_ok (rr : String → Except String String) (key : String)
    (desired : List String) (h : ∀ v, isOkE (rr v) = true) (ls : List String) :
    removeStale rr key desired ls
      = ((ls.filter fun l => !(listHas desired l)).map (Cmd.removeGrain key), none) := by
  induction ls with
  | nil => rfl
  | cons l ls ih =>
    by_cases hl : listHas desired l = true
    · simp [removeStale, hl, ih]
    · cases hv : rr l with
      | error e => have hh := h l; rw [hv] at hh; simp [isOkE] at hh
      | ok o => simp [removeStale, hl, hv, ih]

theorem appendAll_fail (ar : String → Except String String) (key e v : String)
    (pre post : List String)
    (hpre : ∀ u ∈ pre, isOkE (ar u) = true) (hv : ar v = .error e) :
    appendAll ar key (pre ++ v :: post)
      = ((pre ++ [v]).map (Cmd.appendGrain key), some e) := by
  induction pre with
  | nil => simp [appendAll, hv]
  | cons u pre ih =>
    cases hu : ar u with
    | error e2 =>
      have hh := hpre u (by simp)
      rw [hu] at hh; simp [isOkE] at hh
    | ok o =>
      have ihh := ih (fun w hw => hpre w (by simp [hw]))
      simp [appendAll, hu, ihh]

theorem waitMinionIsUp_allFalse (checks : Nat → Except String Bool) (host : String)
    (h : ∀ i, checks i = .ok false) :
    ∀ fuel i, waitMinionIsUp checks host i fuel = .timeout (timeoutMessage host) := by
  intro fuel
  induction fuel with
  | zero => intro i; rfl
  | succ f ih =>
    intro i
    unfold waitMinionIsUp
    rw [h i]
    exact ih (i + 1)

theorem waitMinionIsUp_err (checks : Nat → Except String Bool) (host e : String) :
    ∀ k fuel i, (∀ j, j < k → checks (i + j) = .ok false) →
      checks (i + k) = .error e → k < fuel →
      waitMinionIsUp checks host i fuel
        = .inventoryError ("error checking salt-key acceptance of " ++ host ++ ": " ++ e) := by
  intro k
  induction k with
  | zero =>
    intro fuel i hpre herr hk
    cases fuel with
    | zero => exact absurd hk (by omega)
    | succ f =>
      unfold waitMinionIsUp
      rw [show checks i = .error e from herr]
  | succ k ih =>
    intro fuel i hpre herr hk
    cases fuel with
    | zero => exact absurd hk (by omega)
    | succ f =>
      unfold waitMinionIsUp
      have h0 : checks i = .ok false := by
        have hh := hpre 0 (Nat.succ_pos k)
        simpa using hh
      rw [h0]
      refine ih f (i + 1) (fun j hj => ?_) ?_ (by omega)
      · have hh := hpre (j + 1) (by omega)
        have harith : i + (j + 1) = i + 1 + j := by omega
        rwa [harith] at hh
      · have harith : i + (k + 1) = i + 1 + k := by omega
        rwa [harith] at herr

theorem countApply_append (a b : List Cmd) :
    countApply (a ++ b) = countApply a + countApply b := by
  induction a with
  | nil => simp [countApply]
  | cons c t ih =>
    cases c <;> simp [countApply, ih]
    omega


theorem countApply_map_appendGrain (key : String) (xs : List String) :
    countApply (xs.map (Cmd.appendGrain key)) = 0 := by
  induction xs with
  | nil => rfl
  | cons x xs ih => simpa [countApply] using ih

theorem countApply_map_removeGrain (key : String) (xs : List String) :
    countApply (xs.map (Cmd.removeGrain key)) = 0 := by
  induction xs with
  | nil => rfl
  | cons x xs ih => simpa [countApply] using ih

theorem removesIn_append (a b : List Cmd) :
    removesIn (a ++ b) = removesIn a ++ removesIn b := by
  simp [removesIn]

theorem removesIn_map_appendGrain (key : String) (xs : List String) :
    removesIn (xs.map (Cmd.appendGrain key)) = [] := by
  induction xs with
  | nil => rfl
  | cons x xs _ => simp [removesIn]

theorem removesIn_map_removeGrain (key : String) (xs : List String) :
    removesIn (xs.map (Cmd.removeGrain key)) = xs.map (Cmd.removeGrain key) := by
  induction xs with
  | nil => rfl
  | cons x xs _ => simp [removesIn]

theorem countApply_cons_getGrain (k : String) (t : List Cmd) :
    countApply (Cmd.getGrain k :: t) = countApply t := rfl

theorem countApply_cons_appendGrain (k v : String) (t : List Cmd) :
    countApply (Cmd.appendGrain k v :: t) = countApply t := rfl

theorem countApply_cons_removeGrain (k v : String) (t : List Cmd) :
    countApply (Cmd.removeGrain k v :: t) = countApply t := rfl

theorem countApply_cons_setGrain (k v : String) (t : List Cmd) :
    countApply (Cmd.setGrain k v :: t) = countApply t := rfl

theorem countApply_cons_delKey (k : String) (t : List Cmd) :
    countApply (Cmd.delKey k :: t) = countApply t := rfl

theorem countApply_cons_stateApply (t : List Cmd) :
    countApply (Cmd.stateApply :: t) = countApply t + 1 := rfl

theorem removesIn_nil : removesIn [] = [] := rfl

theorem removesIn_cons_getGrain (k : String) (t : List Cmd) :
    removesIn (Cmd.getGrain k :: t) = removesIn t := rfl

theorem removesIn_cons_appendGrain (k v : String) (t : List Cmd) :
    removesIn (Cmd.appendGrain k v :: t) = removesIn t := rfl

theorem removesIn_cons_removeGrain (k v : String) (t : List Cmd) :
    removesIn (Cmd.removeGrain k v :: t) = Cmd.removeGrain k v :: removesIn t := rfl

theorem removesIn_cons_stateApply (t : List Cmd) :
    removesIn (Cmd.stateApply :: t) = removesIn t := rfl

/-! Claim theorems. -/

/-- C3: when the readiness deadline elapses, `waitMinionIsUp` does fail with
a timeout error carrying the host identifier, but the numeric bound it
formats into the "minutes" slot is the raw Go `time.Duration` value
1800000000000 (nanoseconds), not 30: the message never says
"after 30 minutes". -/
theorem claim_C3 :
    waitMinionIsUp (fun _ => Except.ok false) "minion1" 0 0
      = .timeout (timeoutMessage "minion1")
  ∧ strContains (timeoutMessage "minion1") "minion1" = true
  ∧ strContains (timeoutMessage "minion1") "after 1800000000000 minutes" = true
  ∧ strContains (timeoutMessage "minion1") "after 30 minutes" = false := by
  refine ⟨rfl, ?_, ?_, ?_⟩ <;> decide

/-- C4 (amended): a malformed or null get-response never causes a hard
failure: scalar Read stores the empty string, list Read stores the empty
list, and list Update treats a null response exactly like an empty live
list; but on malformed JSON list Update does not proceed — it returns
early after the first get, issuing no mutation command and adding no
diagnostic. -/
theorem claim_C4 (server key : String) (desired : List String)
    (ar rr : String → Except String String) (g2 : Except String GrainGetResponse)
    (ap : Except String String) (applyFlag : Bool) :
    (grainStringRead ⟨.success, .ok .malformed⟩ server key).savedValue = some ""
  ∧ (grainStringRead ⟨.success, .ok .localNull⟩ server key).savedValue = some ""
  ∧ (grainRead ⟨.success, .ok .malformed⟩ server key).savedList = some []
  ∧ (grainRead ⟨.success, .ok .localNull⟩ server key).savedList = some []
  ∧ grainUpdate ⟨.success, .ok .localNull, ar, g2, rr, ap⟩ server key desired applyFlag
      = grainUpdate ⟨.success, .ok (.localList []), ar, g2, rr, ap⟩ server key desired applyFlag
  ∧ grainUpdate ⟨.success, .ok .malformed, ar, g2, rr, ap⟩ server key desired applyFlag
      = ⟨[Cmd.getGrain key], .silentReturn, [], [], none⟩ :=
  ⟨rfl, rfl, rfl, rfl, rfl, rfl⟩

/-- C4 counterexample: with desired `["docker"]` and a malformed
get-response, list Update issues no append and returns silently, whereas
with an explicitly empty live list it appends "docker" and completes —
so a decode failure is not handled as "proceed with an empty live
list". -/
theorem claim_C4_counterexample :
    grainUpdate ⟨.success, .ok .malformed, fun _ => .ok "", .ok (.localList ["docker"]),
        fun _ => .ok "", .ok ""⟩ "srv1" "roles" ["docker"] false
      = ⟨[Cmd.getGrain "roles"], .silentReturn, [], [], none⟩
  ∧ grainUpdate ⟨.success, .ok (.localList []), fun _ => .ok "", .ok (.localList ["docker"]),
        fun _ => .ok "", .ok ""⟩ "srv1" "roles" ["docker"] false
      = ⟨[Cmd.getGrain "roles", Cmd.appendGrain "roles" "docker", Cmd.getGrain "roles"],
          .completed, [], [], some "srv1-roles"⟩
  ∧ decide ((⟨[Cmd.getGrain "roles"], .silentReturn, [], [], none⟩ : MutResult)
      = ⟨[Cmd.getGrain "roles", Cmd.appendGrain "roles" "docker", Cmd.getGrain "roles"],
          .completed, [], [], some "srv1-roles"⟩) = false := by
  refine ⟨?_, ?_, ?_⟩ <;> decide

/-- C6 (amended): for every mutating operation with apply set, a failure
of the convergence trigger is surfaced as an error-level diagnostic
(`cannot apply state: ...`) and always makes the whole operation a hard
failure; the trigger's captured output — empty on failure — is
additionally surfaced as a warning-level diagnostic. -/
theorem claim_C6 (server key value e : String) (desired live1 live2 : List String) :
    ((grainStringCreate ⟨.success, .ok "", .error e⟩ server key value true).outcome = .hardError
      ∧ (grainStringCreate ⟨.success, .ok "", .error e⟩ server key value true).errors
          = ["cannot apply state: " ++ e]
      ∧ (grainStringCreate ⟨.success, .ok "", .error e⟩ server key value true).warnings = [""])
  ∧ ((grainStringUpdate ⟨.success, .ok "", .error e⟩ server key value true).outcome = .hardError
      ∧ (grainStringUpdate ⟨.success, .ok "", .error e⟩ server key value true).errors
          = ["cannot apply state: " ++ e]
      ∧ (grainStringUpdate ⟨.success, .ok "", .error e⟩ server key value true).warnings = [""])
  ∧ ((grainStringDelete ⟨.success, .ok "", .error e⟩ key true).outcome = .hardError
      ∧ (grainStringDelete ⟨.success, .ok "", .error e⟩ key true).errors
          = ["cannot apply state: " ++ e]
      ∧ (grainStringDelete ⟨.success, .ok "", .error e⟩ key true).warnings = [""])
  ∧ ((grainCreate ⟨.success, fun _ => .ok "", .error e⟩ server key desired true).outcome
        = .hardError
      ∧ (grainCreate ⟨.success, fun _ => .ok "", .error e⟩ server key desired true).errors
          = ["cannot apply state: " ++ e]
      ∧ (grainCreate ⟨.success, fun _ => .ok "", .error e⟩ server key desired true).warnings
          = [""])
  ∧ ((grainDelete ⟨.success, fun _ => .ok "", .error e⟩ key desired true).outcome = .hardError
      ∧ (grainDelete ⟨.success, fun _ => .ok "", .error e⟩ key desired true).errors
          = ["cannot apply state: " ++ e]
      ∧ (grainDelete ⟨.success, fun _ => .ok "", .error e⟩ key desired true).warnings = [""])
  ∧ ((grainUpdate ⟨.success, .ok (.localList live1), fun _ => .ok "",
          .ok (.localList live2), fun _ => .ok "", .error e⟩ server key desired true).outcome
        = .hardError
      ∧ (grainUpdate ⟨.success, .ok (.localList live1), fun _ => .ok "",
          .ok (.localList live2), fun _ => .ok "", .error e⟩ server key desired true).errors
          = ["cannot apply state: " ++ e]
      ∧ (grainUpdate ⟨.success, .ok (.localList live1), fun _ => .ok "",
          .ok (.localList live2), fun _ => .ok "", .error e⟩ server key desired true).warnings
          = [""]) := by
  refine ⟨⟨rfl, rfl, rfl⟩, ⟨rfl, rfl, rfl⟩, ⟨rfl, rfl, rfl⟩, ?_, ?_, ?_⟩
  · have h := appendAll_of_ok (fun _ => Except.ok "") key (fun _ => rfl) desired
    simp [grainCreate, h, applyDiagnostics]
  · have h := removeAll_of_ok (fun _ => Except.ok "") key (fun _ => rfl) desired
    simp [grainDelete, h, applyDiagnostics]
  · have h1 := appendMissing_of_ok (fun _ => Except.ok "") key live1 (fun _ => rfl) desired
    have h2 := removeStale_of_ok (fun _ => Except.ok "") key desired (fun _ => rfl) live2
    simp [grainUpdate, unmarshalListGrain, h1, h2, applyDiagnostics]

/-- C6 counterexample: with apply=true and a failing convergence trigger,
the scalar Create surfaces `cannot apply state: boom` as an error-level
diagnostic — not among the warnings — and the whole operation is a hard
failure. -/
theorem claim_C6_counterexample :
    grainStringCreate ⟨.success, .ok "", .error "boom"⟩ "srv1" "k" "v" true
      = ⟨[Cmd.setGrain "k" "v", Cmd.stateApply], .hardError,
          ["cannot apply state: boom"], [""], none⟩
  ∧ listHas (grainStringCreate ⟨.success, .ok "", .error "boom"⟩ "srv1" "k" "v" true).warnings
      "cannot apply state: boom" = false := by
  refine ⟨?_, ?_⟩ <;> decide

/-- C8 (amended): `runRemoteCommand` surfaces the invalid-credential error
when the key cannot be parsed, the connection error when dialing fails,
the session error when session creation fails, and on a non-zero remote
exit a command error carrying the command text, the host and the
underlying exit message — the captured remote output is not part of the
error (the result is identical for any captured output; the output goes
only to the log sink). -/
theorem claim_C8 (server cmd keyErr dialErr sessErr e out out2 : String)
    (d s : Except String Unit) (o : String × Option String) :
    runRemoteCommand ⟨.error keyErr, d, s, o⟩ server cmd
      = .error ("malformed private key: " ++ keyErr ++
          ", please report this issue to the provider developers")
  ∧ runRemoteCommand ⟨.ok (), .error dialErr, s, o⟩ server cmd
      = .error ("cannot connect to the Salt Minion " ++ server ++ ": " ++ dialErr)
  ∧ runRemoteCommand ⟨.ok (), .ok (), .error sessErr, o⟩ server cmd
      = .error ("cannot create session with the Salt Minion " ++ server ++ ": " ++ sessErr)
  ∧ runRemoteCommand ⟨.ok (), .ok (), .ok (), (out, some e)⟩ server cmd
      = .error ("cannot run the command " ++ cmd ++ " on Salt Minion " ++ server ++ ": " ++ e)
  ∧ runRemoteCommand ⟨.ok (), .ok (), .ok (), (out, some e)⟩ server cmd
      = runRemoteCommand ⟨.ok (), .ok (), .ok (), (out2, some e)⟩ server cmd :=
  ⟨rfl, rfl, rfl, rfl, rfl⟩

/-- C8 counterexample: at a concrete non-zero-exit invocation whose
captured remote output is "REMOTE-OUTPUT", the surfaced command error does
not contain that output. -/
theorem claim_C8_counterexample :
    runRemoteCommand ⟨.ok (), .ok (), .ok (),
        ("REMOTE-OUTPUT", some "Process exited with status 2")⟩ "srv1" "salt-call test.ping"
      = .error
          "cannot run the command salt-call test.ping on Salt Minion srv1: Process exited with status 2"
  ∧ strContains
      "cannot run the command salt-call test.ping on Salt Minion srv1: Process exited with status 2"
      "REMOTE-OUTPUT" = false := by
  refine ⟨rfl, ?_⟩
  decide

/-- C10: with both HTTP calls returning status 200 and a decodable body,
`CheckServerAccepted` answers exactly membership of the host name in the
decoded `result` array; the decoded `success` flag is ignored — flipping
it never changes the outcome. -/
theorem claim_C10 (host b1 b2 : String) (succ : Bool) (L : List String) :
    CheckServerAccepted ⟨.ok ⟨200, b1⟩, .ok ⟨200, b2⟩, .ok (succ, L)⟩ host
      = .ok (listHas L host)
  ∧ CheckServerAccepted ⟨.ok ⟨200, b1⟩, .ok ⟨200, b2⟩, .ok (true, L)⟩ host
      = CheckServerAccepted ⟨.ok ⟨200, b1⟩, .ok ⟨200, b2⟩, .ok (false, L)⟩ host
  ∧ (CheckServerAccepted ⟨.ok ⟨200, b1⟩, .ok ⟨200, b2⟩, .ok (succ, L)⟩ host = .ok true
      ↔ host ∈ L) := by
  refine ⟨rfl, rfl, ?_⟩
  have h : CheckServerAccepted ⟨.ok ⟨200, b1⟩, .ok ⟨200, b2⟩, .ok (succ, L)⟩ host
      = .ok (listHas L host) := rfl
  rw [h]
  simp [listHas_iff]

/-- C1: with the gate passed and every remote call succeeding, the removal
phase of the list Update issues a `grains.remove` for exactly those
elements of the re-fetched live list that are not present anywhere in the
desired list (membership by exact string match, `listHas`); in particular
with desired `["docker"]` and live `["docker","web"]` the Update issues
zero appends and removes "web" while keeping "docker". -/
theorem claim_C1 (server key : String) (desired live1 live2 : List String)
    (ar rr : String → Except String String) (applyFlag : Bool)
    (ha : ∀ v, isOkE (ar v) = true) (hr : ∀ v, isOkE (rr v) = true) :
    removesIn (grainUpdate ⟨.success, .ok (.localList live1), ar, .ok (.localList live2),
        rr, .ok ""⟩ server key desired applyFlag).trace
      = (live2.filter fun l => !(listHas desired l)).map (Cmd.removeGrain key)
  ∧ (∀ l, listHas desired l = true ↔ l ∈ desired)
  ∧ grainUpdate ⟨.success, .ok (.localList ["docker", "web"]), fun _ => .ok "",
        .ok (.localList ["docker", "web"]), fun _ => .ok "", .ok ""⟩
        "srv1" "roles" ["docker"] false
      = ⟨[Cmd.getGrain "roles", Cmd.getGrain "roles", Cmd.removeGrain "roles" "web"],
          .completed, [], [], some "srv1-roles"⟩ := by
  refine ⟨?_, fun l => listHas_iff desired l, by decide⟩
  have h1 := appendMissing_of_ok ar key live1 ha desired
  have h2 := removeStale_of_ok rr key desired hr live2
  cases applyFlag with
  | false =>
    simp [grainUpdate, unmarshalListGrain, h1, h2, removesIn_append, removesIn_nil,
      removesIn_cons_getGrain, removesIn_cons_stateApply,
      removesIn_map_appendGrain, removesIn_map_removeGrain]
  | true =>
    simp [grainUpdate, unmarshalListGrain, h1, h2, applyDiagnostics, removesIn_append,
      removesIn_nil, removesIn_cons_getGrain, removesIn_cons_stateApply,
      removesIn_map_appendGrain, removesIn_map_removeGrain]

/-- Witness for C1: the removal commands of the concrete scenario-B run. -/
theorem claim_C1_witness :
    removesIn (grainUpdate ⟨.success, .ok (.localList ["docker", "web"]), fun _ => .ok "",
        .ok (.localList ["docker", "web"]), fun _ => .ok "", .ok ""⟩
        "srv1" "roles" ["docker"] false).trace
      = ((["docker", "web"].filter fun l => !(listHas ["docker"] l)).map
          (Cmd.removeGrain "roles")) :=
  (claim_C1 "srv1" "roles" ["docker"] ["docker", "web"] ["docker", "web"]
    (fun _ => Except.ok "") (fun _ => Except.ok "") false
    (fun _ => rfl) (fun _ => rfl)).1

/-- C2: polling a fixed inventory whose accepted list is `L` (status 200,
decodable body), `waitMinionIsUp` succeeds iff the host appears verbatim
in `L`; if the host is never accepted, the fixed deadline yields the
timeout error; and the first failing inventory call — after any number of
not-yet-accepted polls — aborts the wait at once with the wrapped
inventory error, regardless of later poll results (no retry). -/
theorem claim_C2 (host b1 b2 e : String) (succ : Bool) (L : List String)
    (fuel k : Nat) (checks checks2 : Nat → Except String Bool)
    (hfuel : 0 < fuel)
    (hc : ∀ i, checks i
      = CheckServerAccepted ⟨.ok ⟨200, b1⟩, .ok ⟨200, b2⟩, .ok (succ, L)⟩ host)
    (hk : k < fuel) (hpre : ∀ j, j < k → checks2 j = .ok false)
    (herr : checks2 k = .error e) :
    (waitMinionIsUp checks host 0 fuel = .success ↔ host ∈ L)
  ∧ (host ∉ L → waitMinionIsUp checks host 0 fuel = .timeout (timeoutMessage host))
  ∧ waitMinionIsUp checks2 host 0 fuel
      = .inventoryError ("error checking salt-key acceptance of " ++ host ++ ": " ++ e) := by
  have hval : ∀ i, checks i = .ok (listHas L host) := fun i => hc i
  refine ⟨?_, ?_, ?_⟩
  · by_cases hmem : listHas L host = true
    · cases fuel with
      | zero => omega
      | succ f =>
        constructor
        · intro _; exact (listHas_iff L host).mp hmem
        · intro _
          unfold waitMinionIsUp
          rw [hval 0, hmem]
    · have hfalse : ∀ i, checks i = .ok false := by
        intro i
        rw [hval i]
        simp only [Bool.not_eq_true] at hmem
        rw [hmem]
      rw [waitMinionIsUp_allFalse checks host hfalse fuel 0]
      constructor
      · intro hcontra; exact absurd hcontra (by simp)
      · intro hmemL; exact absurd ((listHas_iff L host).mpr hmemL) (by simp [hmem])
  · intro hnot
    have hmem : listHas L host = false := by
      cases hq : listHas L host
      · rfl
      · exact absurd ((listHas_iff L host).mp hq) hnot
    have hfalse : ∀ i, checks i = .ok false := fun i => by rw [hval i, hmem]
    exact waitMinionIsUp_allFalse checks host hfalse fuel 0
  · refine waitMinionIsUp_err checks2 host e k fuel 0 (fun j hj => ?_) ?_ hk
    · have hh := hpre j hj
      simpa using hh
    · simpa using herr

/-- Witness for C2: a concrete run where the second poll fails and the
wait aborts with the wrapped inventory error. -/
theorem claim_C2_witness :
    waitMinionIsUp (fun i => if i = 0 then Except.ok false else Except.error "down")
        "m1" 0 2
      = .inventoryError ("error checking salt-key acceptance of " ++ "m1" ++ ": " ++ "down") :=
  (claim_C2 "m1" "" "" "down" true ["m1"] 2 1
    (fun _ => CheckServerAccepted ⟨.ok ⟨200, ""⟩, .ok ⟨200, ""⟩, .ok (true, ["m1"])⟩ "m1")
    (fun i => if i = 0 then Except.ok false else Except.error "down")
    (by omega) (fun _ => rfl) (by omega)
    (fun j hj => by
      have hj0 : j = 0 := by omega
      subst hj0
      rfl)
    rfl).2.2

/-- C5: with the gate passed, the list Create issues one `grains.append`
per desired element in list order when all appends succeed; the first
failing append is issued, aborts the remaining elements, and is surfaced
as an error diagnostic, while the already-issued appends stay in the trace
and no compensating remove is issued. -/
theorem claim_C5 (server key e v : String) (desired pre post : List String)
    (arOk ar : String → Except String String) (ap ap2 : Except String String)
    (h1 : ∀ u, isOkE (arOk u) = true)
    (h2 : ∀ u, u ∈ pre → isOkE (ar u) = true)
    (h3 : ar v = .error e) :
    (grainCreate ⟨.success, arOk, ap⟩ server key desired false).trace
      = desired.map (Cmd.appendGrain key)
  ∧ (grainCreate ⟨.success, arOk, ap⟩ server key desired false).outcome = .completed
  ∧ (grainCreate ⟨.success, ar, ap2⟩ server key (pre ++ v :: post) false).trace
      = (pre ++ [v]).map (Cmd.appendGrain key)
  ∧ (grainCreate ⟨.success, ar, ap2⟩ server key (pre ++ v :: post) false).outcome = .hardError
  ∧ (grainCreate ⟨.success, ar, ap2⟩ server key (pre ++ v :: post) false).errors
      = ["Cannot create the grain value on the Salt Minion"]
  ∧ removesIn (grainCreate ⟨.success, ar, ap2⟩ server key (pre ++ v :: post) false).trace
      = [] := by
  have hA := appendAll_of_ok arOk key h1 desired
  have hF := appendAll_fail ar key e v pre post h2 h3
  refine ⟨?_, ?_, ?_, ?_, ?_, ?_⟩ <;>
    simp [grainCreate, hA, hF, removesIn_map_appendGrain, removesIn_append,
      removesIn_nil, removesIn_cons_appendGrain]

/-- Witness for C5: concrete failing create, aborted after the failing
element. -/
theorem claim_C5_witness :
    (grainCreate ⟨.success, (fun _ => Except.error "fail"), .ok ""⟩
        "srv1" "roles" ([] ++ "b" :: ["c"]) false).trace
      = ([] ++ ["b"]).map (Cmd.appendGrain "roles") :=
  (claim_C5 "srv1" "roles" "fail" "b" ["x"] [] ["c"]
    (fun _ => Except.ok "") (fun _ => Except.error "fail") (.ok "") (.ok "")
    (fun _ => rfl) (fun u hu => absurd hu (List.not_mem_nil u)) rfl).2.2.1

/-- C7: for every mutating operation whose mutation commands all succeed,
the trace is the mutation commands followed — exactly when apply is set —
by a single `state.apply`, so apply=true yields exactly one convergence
attempt, strictly after the mutation, and apply=false yields none
(whatever the apply attempt itself returns). -/
theorem claim_C7 (server key value : String) (desired live1 live2 : List String)
    (ap : Except String String) (applyFlag : Bool) :
    ((grainStringCreate ⟨.success, .ok "", ap⟩ server key value applyFlag).trace
        = [Cmd.setGrain key value] ++ (if applyFlag then [Cmd.stateApply] else [])
      ∧ countApply (grainStringCreate ⟨.success, .ok "", ap⟩ server key value applyFlag).trace
          = if applyFlag then 1 else 0)
  ∧ ((grainStringUpdate ⟨.success, .ok "", ap⟩ server key value applyFlag).trace
        = [Cmd.setGrain key value] ++ (if applyFlag then [Cmd.stateApply] else [])
      ∧ countApply (grainStringUpdate ⟨.success, .ok "", ap⟩ server key value applyFlag).trace
          = if applyFlag then 1 else 0)
  ∧ ((grainStringDelete ⟨.success, .ok "", ap⟩ key applyFlag).trace
        = [Cmd.delKey key] ++ (if applyFlag then [Cmd.stateApply] else [])
      ∧ countApply (grainStringDelete ⟨.success, .ok "", ap⟩ key applyFlag).trace
          = if applyFlag then 1 else 0)
  ∧ ((grainCreate ⟨.success, fun _ => .ok "", ap⟩ server key desired applyFlag).trace
        = desired.map (Cmd.appendGrain key) ++ (if applyFlag then [Cmd.stateApply] else [])
      ∧ countApply (grainCreate ⟨.success, fun _ => .ok "", ap⟩
            server key desired applyFlag).trace
          = if applyFlag then 1 else 0)
  ∧ ((grainDelete ⟨.success, fun _ => .ok "", ap⟩ key desired applyFlag).trace
        = desired.map (Cmd.removeGrain key) ++ (if applyFlag then [Cmd.stateApply] else [])
      ∧ countApply (grainDelete ⟨.success, fun _ => .ok "", ap⟩ key desired applyFlag).trace
          = if applyFlag then 1 else 0)
  ∧ ((grainUpdate ⟨.success, .ok (.localList live1), fun _ => .ok "",
          .ok (.localList live2), fun _ => .ok "", ap⟩ server key desired applyFlag).trace
        = ((Cmd.getGrain key ::
              (desired.filter fun d => !(listHas live1 d)).map (Cmd.appendGrain key)) ++
            [Cmd.getGrain key] ++
            (live2.filter fun l => !(listHas desired l)).map (Cmd.removeGrain key)) ++
          (if applyFlag then [Cmd.stateApply] else [])
      ∧ countApply (grainUpdate ⟨.success, .ok (.localList live1), fun _ => .ok "",
            .ok (.localList live2), fun _ => .ok "", ap⟩ server key desired applyFlag).trace
          = if applyFlag then 1 else 0) := by
  have hA := appendAll_of_ok (fun _ => Except.ok "") key (fun _ => rfl) desired
  have hR := removeAll_of_ok (fun _ => Except.ok "") key (fun _ => rfl) desired
  have h1 := appendMissing_of_ok (fun _ => Except.ok "") key live1 (fun _ => rfl) desired
  have h2 := removeStale_of_ok (fun _ => Except.ok "") key desired (fun _ => rfl) live2
  cases applyFlag <;> cases ap <;>
    refine ⟨⟨?_, ?_⟩, ⟨?_, ?_⟩, ⟨?_, ?_⟩, ⟨?_, ?_⟩, ⟨?_, ?_⟩, ⟨?_, ?_⟩⟩ <;>
    simp [grainStringCreate, grainStringUpdate, grainStringDelete, grainCreate,
      grainDelete, grainUpdate, unmarshalListGrain, hA, hR, h1, h2, applyDiagnostics,
      countApply_append, countApply_map_appendGrain, countApply_map_removeGrain,
      countApply_cons_getGrain, countApply_cons_appendGrain, countApply_cons_removeGrain,
      countApply_cons_setGrain, countApply_cons_delKey, countApply_cons_stateApply,
      countApply]

/-- C9: on successful runs every operation of both resources stores the
identity `server ++ "-" ++ key` — the raw host and grain key joined by a
hyphen — and no run of any operation ever stores a different identity. -/
theorem claim_C9 (server key value : String) (desired live1 live2 : List String)
    (resp : GrainGetResponse) (fC fU fSC fSU : Bool)
    (envU : ListUpdateEnv) (envC : ListCreateEnv) (envSC envSU : ScalarMutEnv)
    (envR envSR : ReadEnv) :
    (grainCreate ⟨.success, fun _ => .ok "", .ok ""⟩ server key desired false).savedId
      = some (server ++ "-" ++ key)
  ∧ (grainRead ⟨.success, .ok resp⟩ server key).savedId = some (server ++ "-" ++ key)
  ∧ (grainUpdate ⟨.success, .ok (.localList live1), fun _ => .ok "",
        .ok (.localList live2), fun _ => .ok "", .ok ""⟩ server key desired false).savedId
      = some (server ++ "-" ++ key)
  ∧ (grainStringCreate ⟨.success, .ok "", .ok ""⟩ server key value false).savedId
      = some (server ++ "-" ++ key)
  ∧ (grainStringUpdate ⟨.success, .ok "", .ok ""⟩ server key value false).savedId
      = some (server ++ "-" ++ key)
  ∧ (grainStringRead ⟨.success, .ok resp⟩ server key).savedId = some (server ++ "-" ++ key)
  ∧ ((grainCreate envC server key desired fC).savedId = none
      ∨ (grainCreate envC server key desired fC).savedId = some (server ++ "-" ++ key))
  ∧ ((grainRead envR server key).savedId = none
      ∨ (grainRead envR server key).savedId = some (server ++ "-" ++ key))
  ∧ ((grainUpdate envU server key desired fU).savedId = none
      ∨ (grainUpdate envU server key desired fU).savedId = some (server ++ "-" ++ key))
  ∧ ((grainStringCreate envSC server key value fSC).savedId = none
      ∨ (grainStringCreate envSC server key value fSC).savedId = some (server ++ "-" ++ key))
  ∧ ((grainStringUpdate envSU server key value fSU).savedId = none
      ∨ (grainStringUpdate envSU server key value fSU).savedId = some (server ++ "-" ++ key))
  ∧ ((grainStringRead envSR server key).savedId = none
      ∨ (grainStringRead envSR server key).savedId = some (server ++ "-" ++ key)) := by
  have hA := appendAll_of_ok (fun _ => Except.ok "") key (fun _ => rfl) desired
  have h1 := appendMissing_of_ok (fun _ => Except.ok "") key live1 (fun _ => rfl) desired
  have h2 := removeStale_of_ok (fun _ => Except.ok "") key desired (fun _ => rfl) live2
  refine ⟨?_, rfl, ?_, rfl, rfl, rfl, ?_, ?_, ?_, ?_, ?_, ?_⟩
  · simp [grainCreate, hA]
  · simp [grainUpdate, unmarshalListGrain, h1, h2]
  · unfold grainCreate
    rcases envC with ⟨w, ar, ap⟩
    cases w
    case success =>
      repeat' split
      all_goals first | exact Or.inl rfl | exact Or.inr rfl
    case timeout m => exact Or.inl rfl
    case inventoryError m => exact Or.inl rfl
  · unfold grainRead
    rcases envR with ⟨w, g⟩
    cases w
    case success =>
      repeat' split
      all_goals first | exact Or.inl rfl | exact Or.inr rfl
    case timeout m => exact Or.inl rfl
    case inventoryError m => exact Or.inl rfl
  · unfold grainUpdate
    rcases envU with ⟨w, g1, ar, g2, rr, ap⟩
    cases w
    case success =>
      repeat' split
      all_goals first | exact Or.inl rfl | exact Or.inr rfl
    case timeout m => exact Or.inl rfl
    case inventoryError m => exact Or.inl rfl
  · unfold grainStringCreate
    rcases envSC with ⟨w, c, ap⟩
    cases w
    case success =>
      repeat' split
      all_goals first | exact Or.inl rfl | exact Or.inr rfl
    case timeout m => exact Or.inl rfl
    case inventoryError m => exact Or.inl rfl
  · unfold grainStringUpdate
    rcases envSU with ⟨w, c, ap⟩
    cases w
    case success =>
      repeat' split
      all_goals first | exact Or.inl rfl | exact Or.inr rfl
    case timeout m => exact Or.inl rfl
    case inventoryError m => exact Or.inl rfl
  · unfold grainStringRead
    rcases envSR with ⟨w, g⟩
    cases w
    case success =>
      repeat' split
      all_goals first | exact Or.inl rfl | exact Or.inr rfl
    case timeout m => exact Or.inl rfl
    case inventoryError m => exact Or.inl rfl

end Salty
